import Mathlib

/-!
Verification development for `Hacks/__main__.py`, a parallel file-tree
digest system: it walks a root directory, hashes every file with a
streaming SHA-512 fed in fixed-size chunks, reports progress through a
single shared `notify` sink, and returns a dict from path to hex digest.

Shallow embedding conventions:
* Bytes are `Nat`s; file contents are `List Nat`.
* The SHA-512 primitive from `hashlib` is abstracted as a parameter
  `H : List Nat → List Nat` mapping the whole message fed so far to the
  raw digest bytes; the streaming object is modelled by the list of bytes
  fed to it (`digest.update(chunk)` appends, `digest.digest()` applies
  `H`).  Every theorem holds for an arbitrary `H`.
* Exceptions are modelled with `Except Unit`; a Python value of
  `None` is `Option.none`.
* The `notify` progress sink (shared through a `BaseManager` proxy, so
  its method calls are serialized) is modelled as an explicit state that
  is threaded through the run.
-/

/-- `BUFSIZE = 2**25`, the read-buffer size (source line 12). -/
def BUFSIZE : Nat := 2 ^ 25

/-- `POOLSIZE = 1`, the default worker-pool size (source line 13). -/
def POOLSIZE : Nat := 1

/-- One hexadecimal digit, lowercase, as produced by Python's
`bytes.hex()`: digits `0`-`9` then letters `a`-`f`. -/
def hexChar (n : Nat) : Char :=
  if n < 10 then Char.ofNat (48 + n) else Char.ofNat (87 + n)

/-- `bytes.hex()`: each byte becomes two lowercase hex characters,
high nibble first. -/
def byteListHex (bs : List Nat) : String :=
  String.mk ((bs.map (fun b => [hexChar (b / 16 % 16), hexChar (b % 16)])).flatten)

/-- Whether a character is a lowercase hexadecimal digit. -/
def isHexLower (c : Char) : Bool :=
  ("0123456789abcdef".data).contains c

/-- Python's `'%-Ns' % s`: left-justify `s` in a field of minimum width
`w`, padding with spaces on the right, never truncating. -/
def padRight (s : String) (w : Nat) : String :=
  s ++ String.mk (List.replicate (w - s.length) ' ')

/-- The run-log line written by `notify.msPrint` (source line 25):
`'%-175s\t%s\n' % (filename, digest)`. -/
def logLine (filename digest : String) : String :=
  padRight filename 175 ++ "\t" ++ digest ++ "\n"

/-- State of the `notify` progress sink (source lines 17-30).  `x` is the
counter, `consoleRecords` the progress lines printed to the console as
`(sequence number, path truncated to 125 chars, digest truncated to 20
chars)`, and `fileLog` the lines written to the run-log file. -/
structure notify where
  x : Nat
  consoleRecords : List (Nat × String × String)
  fileLog : List String
deriving DecidableEq

/-- `notify.__init__`: counter starts at 0 and the freshly opened run-log
file is empty (source lines 18-20). -/
def notify.init : notify := ⟨0, [], []⟩

/-- `notify.msPrint` (source lines 22-25): increment the counter, print a
console progress record `'%06d > %-125s : %-20s\r' % (self.x,
filename[:125], digest[:20])`, and append the untruncated run-log line. -/
def notify.msPrint (n : notify) (filename digest : String) : notify :=
  { x := n.x + 1,
    consoleRecords := n.consoleRecords ++
      [(n.x + 1, String.mk (filename.data.take 125), String.mk (digest.data.take 20))],
    fileLog := n.fileLog ++ [logLine filename digest] }

/-- `notify.final` (source lines 27-30) prints `'Files Processed:\t%06d'
% self.x` and closes the file; we record the printed total. -/
def notify.final (n : notify) : Nat := n.x

/-- How the filesystem treats one file of the walk:
* `unopenable`: `open(filename, "rb")` raises `IOError` (caught, source
  lines 36-39);
* `readError`: the open succeeds but some `f.read(BUFSIZE)` call raises
  `OSError`, which is outside the `try` block (source lines 43-44);
* `readable c`: the open succeeds and the reads deliver the byte
  contents `c` to completion. -/
inductive FileAccess where
  | unopenable : FileAccess
  | readError : FileAccess
  | readable : List Nat → FileAccess
deriving DecidableEq

/-- The `while True` read loop of `compute_digest` (source lines 43-51),
with explicit fuel for structural recursion: each iteration reads
`rest.take bufsize`; an empty chunk breaks the loop, otherwise the chunk
is fed to the digest (`acc` is the bytes fed so far).  A nonempty chunk
consumes at least one byte, so fuel `rest.length + 1` always suffices. -/
def digestLoopF (bufsize : Nat) : Nat → List Nat → List Nat → List Nat
  | 0, acc, _ => acc
  | fuel + 1, acc, rest =>
    if rest.take bufsize = [] then acc
    else digestLoopF bufsize fuel (acc ++ rest.take bufsize) (rest.drop bufsize)

/-- Bytes fed to the hash accumulator by the read loop started on `rest`
with `acc` already fed. -/
def digestLoop (bufsize : Nat) (acc rest : List Nat) : List Nat :=
  digestLoopF bufsize (rest.length + 1) acc rest

/-- Number of `digest.update(chunk)` calls the read loop performs
(source line 51), fuelled like `digestLoopF`. -/
def updateCountF (bufsize : Nat) : Nat → List Nat → Nat
  | 0, _ => 0
  | fuel + 1, rest =>
    if rest.take bufsize = [] then 0
    else 1 + updateCountF bufsize fuel (rest.drop bufsize)

/-- Number of `digest.update` calls on a file with contents `rest`. -/
def updateCount (bufsize : Nat) (rest : List Nat) : Nat :=
  updateCountF bufsize (rest.length + 1) rest

/-- `compute_digest(filename, printer)` (source lines 35-58).  Returns
`none` when the open fails (`except IOError: return None`); propagates
the exception when a read fails (the reads are outside the `try`);
otherwise feeds the file through the streaming hash in `BUFSIZE` chunks,
reports `(filename, digest hex)` to the sink via `printer.msPrint`, and
returns the pair. -/
def compute_digest (H : List Nat → List Nat) (filename : String)
    (fa : FileAccess) (printer : notify) :
    Except Unit (Option (String × String) × notify) :=
  match fa with
  | .unopenable => .ok (none, printer)
  | .readError => .error ()
  | .readable contents =>
    let dValue := byteListHex (H (digestLoop BUFSIZE [] contents))
    .ok (some (filename, dValue), printer.msPrint filename dValue)

/-- A root directory as seen by `os.walk`: whether it exists and is
readable, and the regular files beneath it (path plus how reading that
file goes). -/
structure RootFS where
  rootExists : Bool
  rootReadable : Bool
  files : List (String × FileAccess)
deriving DecidableEq

/-- The `allfiles` generator (source lines 65-67): `os.walk` is called
with its default `onerror=None`, so an error listing the root (missing
or unreadable directory) is swallowed and the walk yields nothing. -/
def osWalk (fs : RootFS) : List (String × FileAccess) :=
  if fs.rootExists && fs.rootReadable then fs.files else []

/-- `digest_pool.starmap(compute_digest, argsR)` with `POOLSIZE = 1`
(source line 80): the single worker runs the tasks in order, threading
the shared sink proxy; results are collected in task order.  A worker
exception is re-raised by `starmap`. -/
def starmapSeq (H : List Nat → List Nat) :
    List (String × FileAccess) → notify →
    Except Unit (List (Option (String × String)) × notify)
  | [], pr => .ok ([], pr)
  | pf :: rest, pr =>
    match compute_digest H pf.1 pf.2 pr with
    | .error e => .error e
    | .ok (r, pr') =>
      match starmapSeq H rest pr' with
      | .error e => .error e
      | .ok (rs, pr'') => .ok (r :: rs, pr'')

/-- One insertion step of Python's `dict(pairs)`: a later pair with an
existing key overwrites that key's value, otherwise it is appended
(insertion order preserved). -/
def dictUpdate (m : List (String × String)) (kv : String × String) :
    List (String × String) :=
  if m.any (fun p => p.1 == kv.1) then
    m.map (fun p => if p.1 == kv.1 then (p.1, kv.2) else p)
  else m ++ [kv]

/-- `dict(results)` (source line 80): each element must be a key/value
pair; a `None` element (an unreadable file's result) makes `dict` raise
`TypeError`, modelled as `Except.error`. -/
def dictOfResults (rs : List (Option (String × String))) :
    Except Unit (List (String × String)) :=
  if rs.all (fun r => r.isSome) then
    .ok ((rs.filterMap id).foldl dictUpdate [])
  else .error ()

/-- `build_digest_map(topdir, fname)` (source lines 60-86) with the
default `POOLSIZE = 1`: enumerate files with `os.walk`, start the
managed `notify` sink, run `compute_digest` over all files, build the
dict, call `temp.final()` and return the digest map (paired here with
the final sink state, which holds the run log). -/
def build_digest_map (H : List Nat → List Nat) (fs : RootFS) :
    Except Unit (List (String × String) × notify) :=
  match starmapSeq H (osWalk fs) notify.init with
  | .error e => .error e
  | .ok (results, temp) =>
    match dictOfResults results with
    | .error e => .error e
    | .ok digest_map => .ok (digest_map, temp)

/-- The sink-free part of one worker's `compute_digest` call: its return
value (`none` for an unopenable file, the `(path, digest)` pair for a
readable one, an exception for a failed read). -/
def poolWorker (H : List Nat → List Nat) (pf : String × FileAccess) :
    Except Unit (Option (String × String)) :=
  match pf.2 with
  | .unopenable => .ok none
  | .readError => .error ()
  | .readable contents =>
    .ok (some (pf.1, byteListHex (H (digestLoop BUFSIZE [] contents))))

/-- Results of `digest_pool.starmap` with any pool size: `starmap`
returns results in task order regardless of completion order, and
re-raises a worker exception. -/
def poolResults (H : List Nat → List Nat) :
    List (String × FileAccess) → Except Unit (List (Option (String × String)))
  | [] => .ok []
  | pf :: rest =>
    match poolWorker H pf, poolResults H rest with
    | .ok r, .ok rs => .ok (r :: rs)
    | .error e, _ => .error e
    | _, .error e => .error e

/-- The `(path, digest)` pair a worker reports to the sink for one file,
if any: only a fully read file reaches `printer.msPrint`. -/
def poolSuccess (H : List Nat → List Nat) (pf : String × FileAccess) :
    Option (String × String) :=
  match pf.2 with
  | .readable contents =>
    some (pf.1, byteListHex (H (digestLoop BUFSIZE [] contents)))
  | _ => none

/-- Feed a list of reported `(path, digest)` pairs through the sink. -/
def sinkFold (pr : notify) (l : List (String × String)) : notify :=
  l.foldl (fun pr fd => pr.msPrint fd.1 fd.2) pr

/-- One completed task's effect on the shared sink: a successful hash is
reported through `msPrint`, anything else leaves the sink unchanged. -/
def sinkStep (H : List Nat → List Nat) (pr : notify)
    (pf : String × FileAccess) : notify :=
  match poolSuccess H pf with
  | some fd => pr.msPrint fd.1 fd.2
  | none => pr

/-- Modelled from the spec (§5, §9): with `poolSize = N`, the manager
proxy serializes the workers' `msPrint` calls in completion order, an
arbitrary interleaving `arrival` of the task list; the sink state is the
fold of the successful outcomes in that order. -/
def poolSink (H : List Nat → List Nat) (arrival : List (String × FileAccess)) :
    notify :=
  arrival.foldl (sinkStep H) notify.init

/-- `build_digest_map` run with a pool of size `N > 1`: `starmap`
delivers results in task order while the sink records completions in
arrival order `arrival` (a permutation of the task list). -/
def build_digest_map_pool (H : List Nat → List Nat) (fs : RootFS)
    (arrival : List (String × FileAccess)) :
    Except Unit (List (String × String) × notify) :=
  match poolResults H (osWalk fs) with
  | .error e => .error e
  | .ok results =>
    match dictOfResults results with
    | .error e => .error e
    | .ok digest_map => .ok (digest_map, poolSink H arrival)

/-- The digest-map component of a run's result. -/
def mapPart (r : Except Unit (List (String × String) × notify)) :
    Except Unit (List (String × String)) :=
  r.map Prod.fst

/-- When two runs both complete, their run logs hold the same lines up
to order. -/
def logsPermuted (r1 r2 : Except Unit (List (String × String) × notify)) :
    Prop :=
  ∀ dm1 pr1 dm2 pr2, r1 = .ok (dm1, pr1) → r2 = .ok (dm2, pr2) →
    pr1.fileLog.Perm pr2.fileLog

/-! ### Helper lemmas -/

/-- With enough fuel and a positive buffer size, the read loop feeds the
whole remaining contents: each nonempty chunk consumes at least one
byte, so `rest.length < fuel` suffices. -/
theorem digestLoopF_eq (bufsize : Nat) (hb : 0 < bufsize) (fuel : Nat) :
    ∀ rest acc : List Nat, rest.length < fuel →
      digestLoopF bufsize fuel acc rest = acc ++ rest := by
  induction fuel with
  | zero => intro rest acc h; omega
  | succ fuel ih =>
    intro rest acc h
    simp only [digestLoopF]
    by_cases hc : rest.take bufsize = []
    · rw [if_pos hc]
      rcases List.take_eq_nil_iff.mp hc with h0 | h0
      · exact absurd h0 (by omega)
      · simp [h0]
    · rw [if_neg hc]
      have hr : rest ≠ [] := by
        intro he
        exact hc (by simp [he])
      have hpos : 0 < rest.length := List.length_pos.mpr hr
      have hlen : (rest.drop bufsize).length < fuel := by
        simp only [List.length_drop]
        omega
      rw [ih (rest.drop bufsize) (acc ++ rest.take bufsize) hlen]
      rw [List.append_assoc, List.take_append_drop]

/-- The streaming loop feeds exactly the file's bytes, whatever the
(positive) chunk size. -/
theorem digestLoop_eq (bufsize : Nat) (hb : 0 < bufsize)
    (acc rest : List Nat) : digestLoop bufsize acc rest = acc ++ rest :=
  digestLoopF_eq bufsize hb (rest.length + 1) rest acc (by omega)

theorem sinkFold_nil (pr : notify) : sinkFold pr [] = pr := rfl

theorem sinkFold_cons (pr : notify) (fd : String × String)
    (l : List (String × String)) :
    sinkFold pr (fd :: l) = sinkFold (pr.msPrint fd.1 fd.2) l := rfl

/-- Each report increments the counter by one. -/
theorem sinkFold_x : ∀ (l : List (String × String)) (pr : notify),
    (sinkFold pr l).x = pr.x + l.length
  | [], pr => by simp [sinkFold_nil]
  | fd :: l, pr => by
    rw [sinkFold_cons, sinkFold_x l]
    simp [notify.msPrint]
    omega

/-- The sequence numbers printed by a block of reports continue the
counter contiguously. -/
theorem sinkFold_seqs : ∀ (l : List (String × String)) (pr : notify),
    (sinkFold pr l).consoleRecords.map Prod.fst
      = pr.consoleRecords.map Prod.fst ++ List.range' (pr.x + 1) l.length
  | [], pr => by simp [sinkFold_nil]
  | fd :: l, pr => by
    rw [sinkFold_cons, sinkFold_seqs l]
    simp [notify.msPrint, List.range'_succ]

/-- The run-log lines appended by a block of reports, in order. -/
theorem sinkFold_log : ∀ (l : List (String × String)) (pr : notify),
    (sinkFold pr l).fileLog
      = pr.fileLog ++ l.map (fun fd => logLine fd.1 fd.2)
  | [], pr => by simp [sinkFold_nil]
  | fd :: l, pr => by
    rw [sinkFold_cons, sinkFold_log l]
    simp [notify.msPrint]

/-- The single-worker run decomposes into the pure per-file results plus
the sink fold over the successful ones, in task order. -/
theorem starmapSeq_eq (H : List Nat → List Nat) :
    ∀ (files : List (String × FileAccess)) (pr : notify),
    starmapSeq H files pr
      = (poolResults H files).map (fun rs => (rs, sinkFold pr (rs.filterMap id)))
  | [], pr => by simp [starmapSeq, poolResults, sinkFold_nil, Except.map]
  | (p, fa) :: rest, pr => by
    cases fa with
    | unopenable =>
      cases hrec : poolResults H rest with
      | error e =>
        simp [starmapSeq, compute_digest, poolResults, poolWorker, hrec,
          starmapSeq_eq H rest, Except.map]
      | ok rs =>
        simp [starmapSeq, compute_digest, poolResults, poolWorker, hrec,
          starmapSeq_eq H rest, Except.map]
    | readError =>
      simp [starmapSeq, compute_digest, poolResults, poolWorker, Except.map]
    | readable contents =>
      cases hrec : poolResults H rest with
      | error e =>
        simp [starmapSeq, compute_digest, poolResults, poolWorker, hrec,
          starmapSeq_eq H rest, Except.map]
      | ok rs =>
        simp [starmapSeq, compute_digest, poolResults, poolWorker, hrec,
          starmapSeq_eq H rest, sinkFold_cons, Except.map]

/-- Folding `sinkStep` over the arrival order is the sink fold over the
successful outcomes in that order. -/
theorem foldl_sinkStep (H : List Nat → List Nat) :
    ∀ (arrival : List (String × FileAccess)) (pr : notify),
    arrival.foldl (sinkStep H) pr
      = sinkFold pr (arrival.filterMap (poolSuccess H))
  | [], pr => rfl
  | pf :: rest, pr => by
    cases hs : poolSuccess H pf with
    | none =>
      simp [List.foldl_cons, sinkStep, hs, List.filterMap_cons,
        foldl_sinkStep H rest]
    | some fd =>
      simp [List.foldl_cons, sinkStep, hs, List.filterMap_cons,
        foldl_sinkStep H rest, sinkFold_cons]

theorem poolSink_eq (H : List Nat → List Nat)
    (arrival : List (String × FileAccess)) :
    poolSink H arrival
      = sinkFold notify.init (arrival.filterMap (poolSuccess H)) :=
  foldl_sinkStep H arrival notify.init

/-- The successful results of a completed pool run are, in order, the
successes of the task list. -/
theorem poolResults_filterMap (H : List Nat → List Nat) :
    ∀ (files : List (String × FileAccess))
      (rs : List (Option (String × String))),
    poolResults H files = .ok rs →
      rs.filterMap id = files.filterMap (poolSuccess H)
  | [], rs, h => by
    simp only [poolResults, Except.ok.injEq] at h
    subst h
    rfl
  | (p, fa) :: rest, rs, h => by
    cases fa with
    | unopenable =>
      cases hrec : poolResults H rest with
      | error e => simp [poolResults, poolWorker, hrec] at h
      | ok rs' =>
        simp [poolResults, poolWorker, hrec] at h
        subst h
        simp [List.filterMap_cons, poolSuccess,
          poolResults_filterMap H rest rs' hrec]
    | readError => simp [poolResults, poolWorker] at h
    | readable contents =>
      cases hrec : poolResults H rest with
      | error e => simp [poolResults, poolWorker, hrec] at h
      | ok rs' =>
        simp [poolResults, poolWorker, hrec] at h
        subst h
        simp [List.filterMap_cons, poolSuccess,
          poolResults_filterMap H rest rs' hrec]

/-- Every character `bytes.hex()` produces is a lowercase hex digit. -/
theorem hexChar_isHexLower (n : Nat) (h : n < 16) :
    isHexLower (hexChar n) = true := by
  interval_cases n <;> decide

theorem byteListHex_lower (bs : List Nat) :
    ∀ c ∈ (byteListHex bs).data, isHexLower c = true := by
  intro c hc
  have hdata : (byteListHex bs).data
      = (bs.map (fun b => [hexChar (b / 16 % 16), hexChar (b % 16)])).flatten :=
    rfl
  rw [hdata] at hc
  rcases List.mem_flatten.mp hc with ⟨l, hl, hcl⟩
  rcases List.mem_map.mp hl with ⟨b, hb, rfl⟩
  have h16 : ∀ m : Nat, m % 16 < 16 := fun m => Nat.mod_lt _ (by omega)
  simp only [List.mem_cons, List.not_mem_nil, or_false] at hcl
  rcases hcl with rfl | rfl
  · exact hexChar_isHexLower _ (h16 _)
  · exact hexChar_isHexLower _ (h16 _)


/-! ### Claims -/

/-- C2: for every file contents and every positive chunk size, the
digest computed by feeding the contents chunk-by-chunk into the
streaming hash equals the reference hash of the whole contents taken at
once; the chunk size never changes the resulting digest hex. -/
theorem c2_chunking_never_changes_digest (H : List Nat → List Nat)
    (contents : List Nat) (b1 b2 : Nat) (h1 : 0 < b1) (h2 : 0 < b2) :
    byteListHex (H (digestLoop b1 [] contents))
      = byteListHex (H (digestLoop b2 [] contents))
    ∧ digestLoop b1 [] contents = contents := by
  refine ⟨?_, ?_⟩ <;> simp [digestLoop_eq b1 h1, digestLoop_eq b2 h2]

/-- Witness for C2 at chunk sizes 1 and 3 on a five-byte file. -/
theorem c2_witness :
    (0 < 1 ∧ 0 < 3)
    ∧ (byteListHex ((fun l => l) (digestLoop 1 [] [0, 1, 2, 3, 4]))
        = byteListHex ((fun l => l) (digestLoop 3 [] [0, 1, 2, 3, 4]))
      ∧ digestLoop 1 [] [0, 1, 2, 3, 4] = [0, 1, 2, 3, 4]) :=
  ⟨⟨by decide, by decide⟩,
    c2_chunking_never_changes_digest (fun l => l) [0, 1, 2, 3, 4] 1 3
      (by decide) (by decide)⟩

/-- C10: for every positive chunk size the read loop consumes the whole
file and exits on the empty read; on an empty file it performs zero
`update` calls and `compute_digest` still returns a `Success` outcome
whose digest is the hash of the empty byte string. -/
theorem c10_empty_file_success (bufsize : Nat) (hb : 0 < bufsize)
    (H : List Nat → List Nat) (p : String) (pr : notify)
    (contents : List Nat) :
    digestLoop bufsize [] contents = contents
    ∧ updateCount bufsize [] = 0
    ∧ compute_digest H p (.readable []) pr
        = .ok (some (p, byteListHex (H [])),
            pr.msPrint p (byteListHex (H []))) := by
  refine ⟨by simp [digestLoop_eq bufsize hb], by simp [updateCount, updateCountF], rfl⟩

/-- Witness for C10 at chunk size 4. -/
theorem c10_witness :
    0 < 4
    ∧ (digestLoop 4 [] [7, 7] = [7, 7]
      ∧ updateCount 4 [] = 0
      ∧ compute_digest (fun l => l) "e" (.readable []) notify.init
          = .ok (some ("e", byteListHex ((fun l => l) [])),
              notify.init.msPrint "e" (byteListHex ((fun l => l) [])))) :=
  ⟨by decide,
    c10_empty_file_success 4 (by decide) (fun l => l) "e" notify.init [7, 7]⟩

/-- C6 counterexample: a file that opens but cannot be read to
completion makes `compute_digest` raise (the reads are outside the
`try`), refuting "never raises an exception". -/
theorem c6_counterexample :
    compute_digest (fun l => l) "f" .readError notify.init = .error () :=
  rfl

/-- C6 amended: if the open fails, `compute_digest` returns `None`
(carrying no path) without raising and without touching the sink; an
error while reading after a successful open is not caught and
propagates to the caller. -/
theorem c6_open_failure_only (H : List Nat → List Nat) (p : String)
    (pr : notify) :
    compute_digest H p .unopenable pr = .ok (none, pr)
    ∧ compute_digest H p .readError pr = .error () :=
  ⟨rfl, rfl⟩

/-- C7: every `Success` outcome appends exactly one run-log line: the
path left-justified to minimum width 175 without truncation, a tab, the
full lowercase hex digest, and a newline; an unreadable file appends no
line. -/
theorem c7_log_line_format (H : List Nat → List Nat) (p : String)
    (contents : List Nat) (pr : notify) :
    compute_digest H p (.readable contents) pr
      = .ok (some (p, byteListHex (H contents)),
          pr.msPrint p (byteListHex (H contents)))
    ∧ (pr.msPrint p (byteListHex (H contents))).fileLog
        = pr.fileLog
          ++ [padRight p 175 ++ "\t" ++ byteListHex (H contents) ++ "\n"]
    ∧ (∃ t, padRight p 175 = p ++ t)
    ∧ (∀ c ∈ (byteListHex (H contents)).data, isHexLower c = true)
    ∧ compute_digest H p .unopenable pr = .ok (none, pr) := by
  refine ⟨?_, rfl, ⟨_, rfl⟩, byteListHex_lower _, rfl⟩
  have hB : 0 < BUFSIZE := by simp [BUFSIZE]
  simp [compute_digest, digestLoop_eq BUFSIZE hB]

/-- C8: whenever `compute_digest` surfaces a `Success` result, the
returned sink state already contains the report of that `(path,
digest)` pair: the `msPrint` call happens before the result is
returned. -/
theorem c8_sink_report_before_success (H : List Nat → List Nat)
    (p : String) (fa : FileAccess) (pr pr' : notify)
    (res : Option (String × String))
    (h : compute_digest H p fa pr = .ok (res, pr'))
    (q d : String) (hres : res = some (q, d)) :
    q = p ∧ pr' = pr.msPrint q d
    ∧ pr'.fileLog = pr.fileLog ++ [logLine q d]
    ∧ pr'.consoleRecords.length = pr.consoleRecords.length + 1 := by
  subst hres
  cases fa with
  | unopenable => simp [compute_digest] at h
  | readError => simp [compute_digest] at h
  | readable contents =>
    simp only [compute_digest, Except.ok.injEq, Prod.mk.injEq,
      Option.some.injEq] at h
    obtain ⟨⟨hq, hd⟩, hpr⟩ := h
    subst hq
    subst hd
    subst hpr
    refine ⟨rfl, rfl, rfl, ?_⟩
    simp [notify.msPrint]

/-- Witness for C8 on a one-byte file. -/
theorem c8_witness :
    (compute_digest (fun l => l) "w" (.readable [2]) notify.init
        = .ok (some ("w", "02"), notify.init.msPrint "w" "02")
      ∧ (some ("w", "02") : Option (String × String)) = some ("w", "02"))
    ∧ ("w" = "w"
      ∧ notify.init.msPrint "w" "02" = notify.init.msPrint "w" "02"
      ∧ (notify.init.msPrint "w" "02").fileLog
          = notify.init.fileLog ++ [logLine "w" "02"]
      ∧ (notify.init.msPrint "w" "02").consoleRecords.length
          = notify.init.consoleRecords.length + 1) :=
  ⟨⟨rfl, rfl⟩,
    c8_sink_report_before_success (fun l => l) "w" (.readable [2])
      notify.init (notify.init.msPrint "w" "02") (some ("w", "02")) rfl
      "w" "02" rfl⟩

/-- C3: in a completed run the sink's sequence numbers are exactly
`1..K` with no gaps or repeats, where `K` is the number of `Success`
outcomes, and the total printed by `final` equals `K`. -/
theorem c3_sequence_numbers (H : List Nat → List Nat)
    (files : List (String × FileAccess))
    (results : List (Option (String × String))) (printer : notify)
    (h : starmapSeq H files notify.init = .ok (results, printer)) :
    printer.consoleRecords.map Prod.fst
      = List.range' 1 (results.filterMap id).length
    ∧ printer.x = (results.filterMap id).length
    ∧ printer.final = (results.filterMap id).length := by
  rw [starmapSeq_eq H files notify.init] at h
  cases hrec : poolResults H files with
  | error e =>
    rw [hrec] at h
    simp [Except.map] at h
  | ok rs =>
    rw [hrec] at h
    simp only [Except.map, Except.ok.injEq, Prod.mk.injEq] at h
    obtain ⟨h1, h2⟩ := h
    subst h1
    refine ⟨?_, ?_, ?_⟩
    · rw [← h2, sinkFold_seqs]
      simp [notify.init]
    · rw [← h2, sinkFold_x]
      simp [notify.init]
    · rw [← h2]
      simp [notify.final, sinkFold_x, notify.init]

/-- Witness for C3: a run over one readable and one unreadable file. -/
theorem c3_witness :
    starmapSeq (fun l => l)
        [("a", FileAccess.readable [1]), ("b", FileAccess.unopenable)]
        notify.init
      = .ok ([some ("a", "01"), none],
          ⟨1, [(1, "a", "01")], [logLine "a" "01"]⟩)
    ∧ ((⟨1, [(1, "a", "01")], [logLine "a" "01"]⟩ : notify).consoleRecords.map
          Prod.fst
        = List.range' 1
            (([some ("a", "01"), none] : List (Option (String × String))).filterMap
              id).length
      ∧ (⟨1, [(1, "a", "01")], [logLine "a" "01"]⟩ : notify).x
          = (([some ("a", "01"), none] : List (Option (String × String))).filterMap
              id).length
      ∧ (⟨1, [(1, "a", "01")], [logLine "a" "01"]⟩ : notify).final
          = (([some ("a", "01"), none] : List (Option (String × String))).filterMap
              id).length) :=
  ⟨rfl,
    c3_sequence_numbers (fun l => l)
      [("a", FileAccess.readable [1]), ("b", FileAccess.unopenable)]
      [some ("a", "01"), none] ⟨1, [(1, "a", "01")], [logLine "a" "01"]⟩ rfl⟩


/-- C9: for a fixed tree, the digest map of a `poolSize = 1` run is
key-for-key and value-for-value identical to that of a pooled run whose
sink sees the completions in any order `arrival` (a permutation of the
task list); only the run log's sequence-number-to-path assignment may
differ — the multiset of log lines is the same. -/
theorem c9_pool_size_invariance (H : List Nat → List Nat) (fs : RootFS)
    (arrival : List (String × FileAccess))
    (hperm : (osWalk fs).Perm arrival) :
    mapPart (build_digest_map H fs)
      = mapPart (build_digest_map_pool H fs arrival)
    ∧ logsPermuted (build_digest_map H fs)
        (build_digest_map_pool H fs arrival) := by
  unfold build_digest_map build_digest_map_pool
  rw [starmapSeq_eq H (osWalk fs) notify.init]
  cases hrec : poolResults H (osWalk fs) with
  | error e =>
    simp [Except.map, mapPart, logsPermuted]
  | ok rs =>
    cases hdict : dictOfResults rs with
    | error e =>
      simp [Except.map, mapPart, logsPermuted, hdict]
    | ok dm =>
      simp only [Except.map, hdict]
      constructor
      · simp [mapPart, Except.map]
      · intro dm1 pr1 dm2 pr2 h1 h2
        simp only [Except.ok.injEq, Prod.mk.injEq] at h1 h2
        obtain ⟨hdm1, hpr1⟩ := h1
        obtain ⟨hdm2, hpr2⟩ := h2
        rw [← hpr1, ← hpr2, sinkFold_log, poolSink_eq, sinkFold_log,
          poolResults_filterMap H (osWalk fs) rs hrec]
        simp only [notify.init, List.nil_append]
        exact (hperm.filterMap (poolSuccess H)).map _

/-- Witness for C9: two readable files, pooled completions arriving in
reversed order. -/
theorem c9_witness :
    (osWalk ⟨true, true,
        [("a", FileAccess.readable [0]), ("b", FileAccess.readable [1])]⟩).Perm
      [("b", FileAccess.readable [1]), ("a", FileAccess.readable [0])]
    ∧ (mapPart (build_digest_map (fun l => l)
          ⟨true, true,
            [("a", FileAccess.readable [0]), ("b", FileAccess.readable [1])]⟩)
        = mapPart (build_digest_map_pool (fun l => l)
            ⟨true, true,
              [("a", FileAccess.readable [0]), ("b", FileAccess.readable [1])]⟩
            [("b", FileAccess.readable [1]), ("a", FileAccess.readable [0])])
      ∧ logsPermuted
          (build_digest_map (fun l => l)
            ⟨true, true,
              [("a", FileAccess.readable [0]), ("b", FileAccess.readable [1])]⟩)
          (build_digest_map_pool (fun l => l)
            ⟨true, true,
              [("a", FileAccess.readable [0]), ("b", FileAccess.readable [1])]⟩
            [("b", FileAccess.readable [1]), ("a", FileAccess.readable [0])])) :=
  ⟨List.Perm.swap ("b", FileAccess.readable [1]) ("a", FileAccess.readable [0]) [],
    c9_pool_size_invariance (fun l => l)
      ⟨true, true,
        [("a", FileAccess.readable [0]), ("b", FileAccess.readable [1])]⟩
      [("b", FileAccess.readable [1]), ("a", FileAccess.readable [0])]
      (List.Perm.swap ("b", FileAccess.readable [1])
        ("a", FileAccess.readable [0]) [])⟩

/-- C1: evaluating the run on a tree with one readable and one
unreadable file: `compute_digest` returns a bare `None` for the
unreadable file and `dict(...)` then raises `TypeError`, so the run
aborts with no digest map at all — the code contradicts the spec's
"the run does not abort". -/
theorem c1_unreadable_file_aborts_run :
    build_digest_map (fun l => l)
        ⟨true, true, [("a", FileAccess.readable [1]), ("b", FileAccess.unopenable)]⟩
      = .error () :=
  rfl

/-- C4: with every enumerated file readable the returned map has
exactly one entry per file in walk order; but as soon as one enumerated
file is unreadable, `dict` raises `TypeError` and no map is returned,
so the map does not merely omit the unreadable entry. -/
theorem c4_map_completeness :
    Except.map Prod.fst (build_digest_map (fun l => l)
        ⟨true, true, [("p", FileAccess.readable []), ("r", FileAccess.readable [255])]⟩)
      = .ok [("p", ""), ("r", "ff")]
    ∧ build_digest_map (fun l => l)
        ⟨true, true,
          [("p", FileAccess.readable []), ("q", FileAccess.unopenable),
            ("r", FileAccess.readable [255])]⟩
      = .error () :=
  ⟨rfl, rfl⟩

/-- C5 counterexample: on a nonexistent root the run does not fail —
`os.walk` (default `onerror=None`) swallows the error, so
`build_digest_map` returns an empty digest map. -/
theorem c5_counterexample :
    build_digest_map (fun l => l) ⟨false, true, [("x", FileAccess.readable [1])]⟩
      = .ok ([], notify.init) :=
  rfl

/-- C5 amended: if the root directory does not exist or is not
readable, no error is surfaced: the walk enumerates nothing and
`build_digest_map` returns an empty digest map (after printing a
files-processed total of 0). -/
theorem c5_missing_root_empty_map (H : List Nat → List Nat) (fs : RootFS)
    (h : fs.rootExists = false ∨ fs.rootReadable = false) :
    build_digest_map H fs = .ok ([], notify.init) := by
  have hw : osWalk fs = [] := by
    rcases h with h | h <;> simp [osWalk, h]
  unfold build_digest_map
  rw [hw]
  rfl

/-- Witness for C5 (amended) on an existing but unreadable root. -/
theorem c5_witness :
    ((⟨true, false, [("y", FileAccess.readable [])]⟩ : RootFS).rootExists = false
      ∨ (⟨true, false, [("y", FileAccess.readable [])]⟩ : RootFS).rootReadable
          = false)
    ∧ build_digest_map (fun l => l)
        ⟨true, false, [("y", FileAccess.readable [])]⟩
      = .ok ([], notify.init) :=
  ⟨Or.inr rfl,
    c5_missing_root_empty_map (fun l => l)
      ⟨true, false, [("y", FileAccess.readable [])]⟩ (Or.inr rfl)⟩
